import Mathlib

/-
Verification development for the TIE feedback-generation subsystem.

The definitions below are a shallow embedding of
  src/client/services/FeedbackGeneratorService.js and
  src/client/domain/ErrorTracebackObjectFactory.js.
JavaScript values flowing through the value renderer are modelled by the
inductive type JSValue; fallible code (functions that can throw) returns
Except String.  Components of the repository that are referenced but whose
source is not part of the package under verification (FeedbackObjectFactory,
TranscriptService snapshots, the test domain objects' accessors) are modelled
from the specification's data-model section and carry a doc comment saying
so.
-/

/-- A JavaScript value as seen by the feedback generator: null/undefined,
string, number, boolean, array, plain object (association list of string
keys, in iteration order), or a value of an unrecognized kind (modelled with
a descriptive tag, e.g. a function value). Numbers are restricted to
integers, which is the range exercised by the tutor's test data. -/
inductive JSValue where
  | null : JSValue
  | undef : JSValue
  | str : String → JSValue
  | num : Int → JSValue
  | bool : Bool → JSValue
  | arr : List JSValue → JSValue
  | dict : List (String × JSValue) → JSValue
  | other : String → JSValue

instance : Inhabited JSValue := ⟨JSValue.undef⟩

mutual

/-- Structural equality of JSValues, used to model the spec's "any match
counts as pass" set semantics for allowed outputs. -/
def JSValue.beq : JSValue → JSValue → Bool
  | .null, .null => true
  | .undef, .undef => true
  | .str a, .str b => a == b
  | .num a, .num b => a == b
  | .bool a, .bool b => a == b
  | .arr a, .arr b => beqValues a b
  | .dict a, .dict b => beqPairs a b
  | .other a, .other b => a == b
  | _, _ => false

/-- Pointwise equality of value lists. -/
def beqValues : List JSValue → List JSValue → Bool
  | [], [] => true
  | a :: as, b :: bs => JSValue.beq a b && beqValues as bs
  | _, _ => false

/-- Pointwise equality of key/value entry lists. -/
def beqPairs : List (String × JSValue) → List (String × JSValue) → Bool
  | [], [] => true
  | (ka, va) :: as, (kb, vb) :: bs => ka == kb && JSValue.beq va vb && beqPairs as bs
  | _, _ => false

end

instance : BEq JSValue := ⟨JSValue.beq⟩

/-- The == notation on JSValues is JSValue.beq. -/
theorem jsValue_beq_def (a b : JSValue) : (a == b) = JSValue.beq a b := rfl

/-- Replace every occurrence of the character c in a string by the character
sequence r.  A global single-character regex replace in JavaScript is exactly
this character-wise rewriting. -/
def replaceChar (s : String) (c : Char) (r : List Char) : String :=
  ⟨s.data.foldr (fun a acc => if a = c then r ++ acc else a :: acc) []⟩

/-- The renderer's escaping step, embedded from
`jsVariable.replace(/\t/g, '\\t').replace(/\n/g, '\\n')`: first every tab is
rewritten to backslash-t, then every newline to backslash-n. -/
def escapeCode (s : String) : String :=
  replaceChar (replaceChar s '\t' ['\\', 't']) '\n' ['\\', 'n']

mutual

/-- Embedding of `_jsToHumanReadable` (FeedbackGeneratorService.js, lines
45-74).  Null and undefined render as "None"; strings are quoted with tabs
and newlines escaped; numbers and booleans stringify; arrays and objects
render recursively; any other kind of value throws.  The thrown Error is
built as `Error('Could not make the following object human-readable: ',
jsVariable)`: the second argument of the JavaScript Error constructor is
discarded, so the raised message is the bare constant string. -/
def _jsToHumanReadable : JSValue → Except String String
  | .null => .ok "None"
  | .undef => .ok "None"
  | .str s => .ok ("\"" ++ escapeCode s ++ "\"")
  | .num n => .ok (toString n)
  | .bool b => .ok (if b then "True" else "False")
  | .arr xs =>
    match renderValues xs with
    | .ok rs => .ok ("[" ++ String.intercalate ", " rs ++ "]")
    | .error e => .error e
  | .dict es =>
    match renderPairs es with
    | .ok rs => .ok ("\x7b" ++ String.intercalate ", " rs ++ "\x7d")
    | .error e => .error e
  | .other _ => .error "Could not make the following object human-readable: "

/-- Renders each array element in order, propagating the first failure
(`jsVariable.map(...)` with a throwing callback). -/
def renderValues : List JSValue → Except String (List String)
  | [] => .ok []
  | x :: xs =>
    match _jsToHumanReadable x with
    | .error e => .error e
    | .ok r =>
      match renderValues xs with
      | .error e => .error e
      | .ok rs => .ok (r :: rs)

/-- Renders each key/value entry, in iteration order, as key, colon, space,
value; keys of a JavaScript for-in loop are strings, so the key is rendered
through the string case. -/
def renderPairs : List (String × JSValue) → Except String (List String)
  | [] => .ok []
  | (k, v) :: es =>
    match _jsToHumanReadable (.str k) with
    | .error e => .error e
    | .ok kr =>
      match _jsToHumanReadable v with
      | .error e => .error e
      | .ok vr =>
        match renderPairs es with
        | .error e => .error e
        | .ok rs => .ok ((kr ++ ": " ++ vr) :: rs)

end

mutual

/-- A value is of a recognized kind when, recursively, it contains no
`other` node. -/
def JSValue.wellFormed : JSValue → Bool
  | .other _ => false
  | .arr xs => wellFormedValues xs
  | .dict es => wellFormedPairs es
  | _ => true

/-- All members of a value list are of recognized kinds. -/
def wellFormedValues : List JSValue → Bool
  | [] => true
  | x :: xs => x.wellFormed && wellFormedValues xs

/-- All values of an entry list are of recognized kinds. -/
def wellFormedPairs : List (String × JSValue) → Bool
  | [] => true
  | (_, v) :: es => v.wellFormed && wellFormedPairs es

end

/-- Escaping as the specification words it: each tab becomes the two
characters backslash-t, each newline the two characters backslash-n, in a
single pass over the string. -/
def specEscape (s : String) : String :=
  ⟨s.data.foldr
    (fun c acc =>
      (if c = '\t' then ['\\', 't']
       else if c = '\n' then ['\\', 'n']
       else [c]) ++ acc) []⟩

mutual

/-- Renderer as the specification words it (total; the `other` case is never
reached for well-formed values and renders as the empty string): absent
values render as None, strings in double quotes with tab/newline escaped,
booleans as True/False, sequences bracketed and comma-joined, mappings
brace-delimited with comma-joined key-colon-value entries in iteration
order. -/
def specRender : JSValue → String
  | .null => "None"
  | .undef => "None"
  | .str s => "\"" ++ specEscape s ++ "\""
  | .num n => toString n
  | .bool b => if b then "True" else "False"
  | .arr xs => "[" ++ String.intercalate ", " (specRenderValues xs) ++ "]"
  | .dict es => "\x7b" ++ String.intercalate ", " (specRenderPairs es) ++ "\x7d"
  | .other _ => ""

/-- Spec-side rendering of the elements of a sequence. -/
def specRenderValues : List JSValue → List String
  | [] => []
  | x :: xs => specRender x :: specRenderValues xs

/-- Spec-side rendering of the entries of a mapping. -/
def specRenderPairs : List (String × JSValue) → List String
  | [] => []
  | (k, v) :: es => (specRender (.str k) ++ ": " ++ specRender v) :: specRenderPairs es

end

example : escapeCode "a\tb\nc" = "a\\tb\\nc" := by rfl
example : _jsToHumanReadable (.arr [.num 1, .str "x"]) = .ok "[1, \"x\"]" := by
  simp [_jsToHumanReadable, renderValues]; rfl
example : _jsToHumanReadable (.dict [("k", .bool true)]) = .ok "\x7b\"k\": True\x7d" := by
  simp [_jsToHumanReadable, renderPairs]; rfl
example : _jsToHumanReadable (.arr [.other "f"]) =
    .error "Could not make the following object human-readable: " := by
  simp [_jsToHumanReadable, renderValues]

/-- Kind tag of a feedback paragraph (syntax-error paragraphs are not needed
by any function modelled here). -/
inductive ParagraphKind where
  | text : ParagraphKind
  | code : ParagraphKind
deriving DecidableEq

/-- One feedback paragraph: a kind tag and its content. -/
structure Paragraph where
  kind : ParagraphKind
  content : String
deriving DecidableEq

/-- Modelled from the spec: a Feedback value is an ordered sequence of
paragraphs, a completion flag, and an optional hint-escalation index (null
when the feedback is not hint-based).  The reinforcement attachment is
external and not modelled. -/
structure Feedback where
  paragraphs : List Paragraph
  answerIsCorrect : Bool
  hintIndex : Option Nat
deriving DecidableEq

/-- Modelled from the spec: FeedbackObjectFactory.create starts an empty
feedback with the given completion flag. -/
def Feedback.create (b : Bool) : Feedback :=
  { paragraphs := [], answerIsCorrect := b, hintIndex := none }

/-- Modelled from the spec: appends a prose paragraph. -/
def Feedback.appendTextParagraph (f : Feedback) (s : String) : Feedback :=
  { f with paragraphs := f.paragraphs ++ [⟨ParagraphKind.text, s⟩] }

/-- Modelled from the spec: appends a code-block paragraph. -/
def Feedback.appendCodeParagraph (f : Feedback) (s : String) : Feedback :=
  { f with paragraphs := f.paragraphs ++ [⟨ParagraphKind.code, s⟩] }

/-- Modelled from the spec: records which hint level was used. -/
def Feedback.setHintIndex (f : Feedback) (i : Nat) : Feedback :=
  { f with hintIndex := some i }

/-- Modelled from the spec: a buggy-output test carries an ordered, non-empty
sequence of hint strings (getMessages); the reference-implementation
identifier plays no role in feedback generation and is omitted. -/
structure BuggyOutputTest where
  messages : List String
deriving DecidableEq

instance : Inhabited BuggyOutputTest := ⟨⟨[]⟩⟩

/-- Modelled from the spec: a correctness test holds one input value and the
set of acceptable output values. -/
structure CorrectnessTest where
  input : JSValue
  allowedOutputs : List JSValue

instance : Inhabited CorrectnessTest := ⟨⟨JSValue.undef, []⟩⟩

/-- Modelled from the spec: any match against the acceptable outputs counts
as a pass (set semantics). -/
def CorrectnessTest.matchesOutput (t : CorrectnessTest) (output : JSValue) : Bool :=
  t.allowedOutputs.any (fun a => a == output)

/-- Modelled from the spec: one representative allowed output, used for
display (the first element of the acceptable-output sequence). -/
def CorrectnessTest.getAnyAllowedOutput (t : CorrectnessTest) : JSValue :=
  t.allowedOutputs.headD JSValue.undef

/-- Modelled from the spec: a performance test holds the expected
asymptotic-performance class label, compared for equality against the
observed class. -/
structure PerformanceTest where
  expectedPerformance : String
deriving DecidableEq

instance : Inhabited PerformanceTest := ⟨⟨""⟩⟩

/-- Modelled from the spec: a task owns ordered sequences of buggy-output,
correctness and performance tests, and an optional output-formatting
function name (getOutputFunctionNameWithoutClass).  The source calls this
domain object Task; that name belongs to the Lean core, hence the prefix. -/
structure TieTask where
  buggyOutputTests : List BuggyOutputTest
  correctnessTests : List CorrectnessTest
  performanceTests : List PerformanceTest
  outputFunctionNameWithoutClass : Option String

instance : Inhabited TieTask := ⟨⟨[], [], [], none⟩⟩

/-- Outcome of running a submission, as consumed by the feedback generator:
optional error string, error-context value, the preprocessed source that was
executed, and per-task per-test result sequences positionally aligned with
the task's test sequences. -/
structure CodeEvalResult where
  errorString : Option String
  errorInput : JSValue
  preprocessedCode : String
  buggyOutputTestResults : List (List Bool)
  correctnessTestResults : List (List JSValue)
  performanceTestResults : List (List String)

/-- Modelled from the spec: a history snapshot pairs the previous turn's
evaluation result (possibly absent) with its feedback. -/
structure Snapshot where
  codeEvalResult : Option CodeEvalResult
  feedback : Feedback

/-- JavaScript truthiness of an optional string: present and non-empty. -/
def strTruthy : Option String → Bool
  | none => false
  | some s => !s.isEmpty

/-- Truthiness of the evaluation result's error string, which selects the
error path of the feedback generator. -/
def errTruthy (cer : CodeEvalResult) : Bool :=
  strTruthy cer.errorString

/-- JavaScript's s.startsWith(pre) (equivalently, indexOf(pre) === 0),
expressed over the character lists so that it evaluates by reduction. -/
def strStartsWith (s pre : String) : Bool :=
  pre.data.isPrefixOf s.data

/-- Embedding of the completion case (lines 319-324): all tasks satisfied. -/
def completionFeedback : Feedback :=
  (Feedback.create true).appendTextParagraph
    "You've completed all the tasks for this question! Click the \"Next\" button to move on to the next question."

/-- Embedding of `_getTimeoutErrorFeedback` (lines 221-230), parameterized by
the configured execution time limit CODE_EXECUTION_TIMEOUT_SECONDS. -/
def _getTimeoutErrorFeedback (timeoutSeconds : Nat) : Feedback :=
  (Feedback.create false).appendTextParagraph
    ("Your program's exceeded the time limit (" ++ toString timeoutSeconds
      ++ " seconds) we've set. Can you try to make it run more efficiently?")

/-- Embedding of `_getInfiniteLoopFeedback` (lines 238-245). -/
def _getInfiniteLoopFeedback : Feedback :=
  (Feedback.create false).appendTextParagraph
    "Looks like your code is hitting an infinite recursive loop. Check to see that your recursive calls terminate."

/-- The numeric value of an all-digit character sequence, as JavaScript's
Number() reads the captured group (leading zeros allowed). -/
def digitsToNat (ds : List Char) : Nat :=
  ds.foldl (fun acc c => acc * 10 + (c.toNat - 48)) 0

/-- Embedding of the regex substitution in `_getRuntimeErrorFeedback` (lines
193-210): `errorString.replace(new RegExp('line ([0-9]+)$'), callback)`.  The
pattern matches a trailing "line N"; when absent the string passes through
unchanged.  When present, the one-based reported number is mapped through
rawCodeLineIndexes: an index outside the bounds throws an out-of-range
error; a null entry (harness sentinel) substitutes "a line in the test
code"; otherwise "line " followed by the mapped number plus one. -/
def fixErrorString (errorString : String) (rawCodeLineIndexes : List (Option Nat)) :
    Except String String :=
  let ds := (errorString.data.reverse.takeWhile Char.isDigit).reverse
  if ds.isEmpty then .ok errorString
  else
    let restRev := errorString.data.reverse.drop ds.length
    if ("line ".data.reverse).isPrefixOf restRev then
      let n := digitsToNat ds
      let preprocessedCodeLineIndex : Int := (n : Int) - 1
      if preprocessedCodeLineIndex < 0 ∨
          (rawCodeLineIndexes.length : Int) ≤ preprocessedCodeLineIndex then
        .error ("Line number index out of range: " ++ toString preprocessedCodeLineIndex)
      else
        let replacement :=
          match rawCodeLineIndexes.getD preprocessedCodeLineIndex.toNat none with
          | none => "a line in the test code"
          | some m => "line " ++ toString (m + 1)
        .ok (String.mk (restRev.drop "line ".data.length).reverse ++ replacement)
    else .ok errorString

/-- Embedding of `_getRuntimeErrorFeedback` (lines 183-213): renders the
error-context input (which can itself throw), then the trace with the line
reference remapped. -/
def _getRuntimeErrorFeedback (codeEvalResult : CodeEvalResult)
    (rawCodeLineIndexes : List (Option Nat)) : Except String Feedback :=
  match _jsToHumanReadable codeEvalResult.errorInput with
  | .error e => .error e
  | .ok inputStr =>
    let inputClause := " when evaluating the input " ++ inputStr
    let feedback := (Feedback.create false).appendTextParagraph
      ("Looks like your code had a runtime error" ++ inputClause ++ ". Here's the trace:")
    match fixErrorString (codeEvalResult.errorString.getD "") rawCodeLineIndexes with
    | .error e => .error e
    | .ok fixed => .ok (feedback.appendCodeParagraph fixed)

/-- Embedding of `_getBuggyOutputTestFeedback` (lines 84-116), with the
transcript's most recent snapshot passed explicitly.  The hint index starts
at 0; when the previous snapshot exists, carries an evaluation result, its
feedback was hint-based, and that feedback's first paragraph equals the hint
the previous index points at in the current test's hint sequence, then the
previous index is reused (identical resubmission, or escalation exhausted at
the last hint) or advanced by one.  The previous feedback always carries at
least one paragraph, so the head lookup cannot miss in practice.  The hint
selection is split out as computeHintIndex. -/
def computeHintIndex (failingTest : BuggyOutputTest)
    (lastSnapshot : Option Snapshot) (codeEvalResult : CodeEvalResult) : Nat :=
  match lastSnapshot with
  | none => 0
  | some snapshot =>
    match snapshot.codeEvalResult with
    | none => 0
    | some prevCodeEvalResult =>
      match snapshot.feedback.hintIndex with
      | none => 0
      | some previousHintIndex =>
        match snapshot.feedback.paragraphs.head? with
        | none => 0
        | some firstParagraph =>
          if failingTest.messages.get? previousHintIndex = some firstParagraph.content then
            if prevCodeEvalResult.preprocessedCode = codeEvalResult.preprocessedCode
                ∨ previousHintIndex = failingTest.messages.length - 1 then
              previousHintIndex
            else
              previousHintIndex + 1
          else 0

/-- The feedback assembled from the selected hint: the hint string at the
selected index as a single prose paragraph, with the index recorded. -/
def _getBuggyOutputTestFeedback (failingTest : BuggyOutputTest)
    (lastSnapshot : Option Snapshot) (codeEvalResult : CodeEvalResult) : Feedback :=
  let hintIndex := computeHintIndex failingTest lastSnapshot codeEvalResult
  ((Feedback.create false).appendTextParagraph
    (failingTest.messages.getD hintIndex "")).setHintIndex hintIndex

/-- Embedding of `_getCorrectnessTestFeedback` (lines 129-152): shows the
rendered input and observed output (naming the output-processing function
when one is configured), then one rendered acceptable output. -/
def _getCorrectnessTestFeedback (outputFunctionName : Option String)
    (correctnessTest : CorrectnessTest) (observedOutput : JSValue) : Except String Feedback :=
  let allowedOutputExample := correctnessTest.getAnyAllowedOutput
  match _jsToHumanReadable correctnessTest.input with
  | .error e => .error e
  | .ok inputStr =>
    match _jsToHumanReadable observedOutput with
    | .error e => .error e
    | .ok observedStr =>
      match _jsToHumanReadable allowedOutputExample with
      | .error e => .error e
      | .ok allowedStr =>
        let feedback := (Feedback.create false).appendTextParagraph
          "Your code produced the following result:"
        let feedback :=
          if strTruthy outputFunctionName then
            let name := outputFunctionName.getD ""
            (feedback.appendCodeParagraph
              ("Input: " ++ inputStr ++ "\n" ++ "Output (after running " ++ name ++ "): "
                ++ observedStr)).appendTextParagraph
              ("However, the expected output of " ++ name ++ " is:")
          else
            (feedback.appendCodeParagraph
              ("Input: " ++ inputStr ++ "\n" ++ "Output: " ++ observedStr)).appendTextParagraph
              "However, the expected output is:"
        .ok ((feedback.appendCodeParagraph allowedStr).appendTextParagraph "Could you fix this?")

/-- Embedding of `_getPerformanceTestFeedback` (lines 161-170). -/
def _getPerformanceTestFeedback (expectedPerformance : String) : Feedback :=
  (Feedback.create false).appendTextParagraph
    ("Your code is running more slowly than expected. Can you reconfigure it such that it runs in "
      ++ expectedPerformance ++ " time?")

/-- Inner loop over a task's buggy-output tests (lines 291-296): the first
test whose result flag is truthy fails. -/
def firstFailingBuggy : List BuggyOutputTest → List Bool → Option BuggyOutputTest
  | [], _ => none
  | t :: ts, results =>
    if results.headD false then some t else firstFailingBuggy ts results.tail

/-- Inner loop over a task's correctness tests (lines 298-306): the first
test whose observed output fails matchesOutput fails, together with that
observed output. -/
def firstFailingCorrectness : List CorrectnessTest → List JSValue →
    Option (CorrectnessTest × JSValue)
  | [], _ => none
  | t :: ts, outputs =>
    let observedOutput := outputs.headD JSValue.undef
    if t.matchesOutput observedOutput then firstFailingCorrectness ts outputs.tail
    else some (t, observedOutput)

/-- Inner loop over a task's performance tests (lines 308-316): the first
test whose observed class differs from the expected class fails, yielding
the expected class. -/
def firstFailingPerformance : List PerformanceTest → List String → Option String
  | [], _ => none
  | t :: ts, results =>
    if results.head? = some t.expectedPerformance then firstFailingPerformance ts results.tail
    else some t.expectedPerformance

/-- Embedding of the task scan (lines 279-324): per task, buggy-output tests
first, then correctness tests, then performance tests; the first failing
test's feedback is returned, else the scan moves to the next task; when no
test fails the completion feedback results.  Result rows are consumed in
lockstep with the tasks they are positionally aligned to. -/
def scanTasks (lastSnapshot : Option Snapshot) (codeEvalResult : CodeEvalResult) :
    List TieTask → List (List Bool) → List (List JSValue) → List (List String) →
    Except String Feedback
  | [], _, _, _ => .ok completionFeedback
  | task :: tasks, buggyRows, observedRows, performanceRows =>
    match firstFailingBuggy task.buggyOutputTests (buggyRows.headD []) with
    | some failingTest =>
      .ok (_getBuggyOutputTestFeedback failingTest lastSnapshot codeEvalResult)
    | none =>
      match firstFailingCorrectness task.correctnessTests (observedRows.headD []) with
      | some (failingTest, observedOutput) =>
        _getCorrectnessTestFeedback task.outputFunctionNameWithoutClass failingTest
          observedOutput
      | none =>
        match firstFailingPerformance task.performanceTests (performanceRows.headD []) with
        | some expectedPerformance => .ok (_getPerformanceTestFeedback expectedPerformance)
        | none =>
          scanTasks lastSnapshot codeEvalResult tasks buggyRows.tail observedRows.tail
            performanceRows.tail

/-- Embedding of `_getFeedbackWithoutReinforcement` (lines 259-326): a truthy
error string selects the timeout, infinite-recursion or runtime-error case by
prefix; otherwise the tasks are scanned for the first failing test. -/
def _getFeedbackWithoutReinforcement (tasks : List TieTask) (codeEvalResult : CodeEvalResult)
    (rawCodeLineIndexes : List (Option Nat)) (lastSnapshot : Option Snapshot)
    (timeoutSeconds : Nat) : Except String Feedback :=
  if errTruthy codeEvalResult then
    let errorString := codeEvalResult.errorString.getD ""
    if strStartsWith errorString "TimeLimitError" then
      .ok (_getTimeoutErrorFeedback timeoutSeconds)
    else if strStartsWith errorString "ExternalError: RangeError" then
      .ok _getInfiniteLoopFeedback
    else
      _getRuntimeErrorFeedback codeEvalResult rawCodeLineIndexes
  else
    scanTasks lastSnapshot codeEvalResult tasks codeEvalResult.buggyOutputTestResults
      codeEvalResult.correctnessTestResults codeEvalResult.performanceTestResults

/-- Modelled after the usage in ErrorTracebackObjectFactory.js: a traceback
coordinate holds a one-indexed line and column number. -/
structure TracebackCoordinates where
  lineNumber : Nat
  columnNumber : Nat
deriving DecidableEq

/-- Embedding of the ErrorTraceback domain object
(ErrorTracebackObjectFactory.js): an error message and the coordinate list. -/
structure ErrorTraceback where
  errorMessage : String
  tracebackCoordinates : List TracebackCoordinates
deriving DecidableEq

/-- Embedding of `ErrorTraceback.prototype.getErrorString` (lines 75-80):
a message whose index of "TimeLimitError" is 0 is returned unchanged;
otherwise " on line N" is appended, N being the first coordinate's line
number (absent coordinates would make the source fail, modelled as none). -/
def ErrorTraceback.getErrorString (t : ErrorTraceback) : Option String :=
  if strStartsWith t.errorMessage "TimeLimitError" then some t.errorMessage
  else
    (t.tracebackCoordinates.head?).map
      (fun c => t.errorMessage ++ " on line " ++ toString c.lineNumber)

/-- Spec-side identification of a failing test: which kind failed, with the
data the composer needs. -/
inductive FailingTest where
  | buggy (t : BuggyOutputTest)
  | correctness (outputFunctionName : Option String) (t : CorrectnessTest) (observed : JSValue)
  | performance (expected : String)

/-- The first failing test of one task, as the specification words it: scan
buggy-output tests, then correctness tests, then performance tests, by
ascending position; a buggy-output test fails when its result flag is true,
a correctness test fails when the observed output does not match any allowed
output, and a performance test fails when the observed class differs from
the expected class. -/
def specTaskFirstFailure (task : TieTask) (buggyRow : List Bool)
    (observedRow : List JSValue) (performanceRow : List String) : Option FailingTest :=
  match (List.range task.buggyOutputTests.length).find? (fun j => buggyRow.getD j false) with
  | some j => some (.buggy (task.buggyOutputTests.getD j default))
  | none =>
    match (List.range task.correctnessTests.length).find?
        (fun j =>
          !((task.correctnessTests.getD j default).matchesOutput
            (observedRow.getD j JSValue.undef))) with
    | some j =>
      some (.correctness task.outputFunctionNameWithoutClass (task.correctnessTests.getD j default)
        (observedRow.getD j JSValue.undef))
    | none =>
      match (List.range task.performanceTests.length).find?
          (fun j =>
            !(performanceRow.get? j == some (task.performanceTests.getD j default).expectedPerformance)) with
      | some j => some (.performance (task.performanceTests.getD j default).expectedPerformance)
      | none => none

/-- The first failing test over all tasks, scanned in original order, each
task against its positionally aligned result rows. -/
def specFirstFailing : List TieTask → List (List Bool) → List (List JSValue) →
    List (List String) → Option FailingTest
  | [], _, _, _ => none
  | task :: tasks, buggyRows, observedRows, performanceRows =>
    match specTaskFirstFailure task (buggyRows.headD []) (observedRows.headD [])
        (performanceRows.headD []) with
    | some f => some f
    | none => specFirstFailing tasks buggyRows.tail observedRows.tail performanceRows.tail

/-- The feedback the specification assigns to a detected first failure: the
buggy-output feedback for a buggy detection, the correctness feedback for a
correctness mismatch, the performance feedback for a performance mismatch,
and the completion feedback when nothing fails. -/
def feedbackForFailure (lastSnapshot : Option Snapshot) (codeEvalResult : CodeEvalResult) :
    Option FailingTest → Except String Feedback
  | some (.buggy t) => .ok (_getBuggyOutputTestFeedback t lastSnapshot codeEvalResult)
  | some (.correctness outputFunctionName t observed) =>
    _getCorrectnessTestFeedback outputFunctionName t observed
  | some (.performance expected) => .ok (_getPerformanceTestFeedback expected)
  | none => .ok completionFeedback


/-- A minimal evaluation result carrying only a preprocessed source, used as
concrete input for witnesses. -/
def mkCer (code : String) : CodeEvalResult :=
  { errorString := none, errorInput := JSValue.null, preprocessedCode := code,
    buggyOutputTestResults := [], correctnessTestResults := [],
    performanceTestResults := [] }

/-- The hint index selected by the buggy-output feedback is exactly the one
computeHintIndex determines. -/
theorem buggy_feedback_hintIndex (failingTest : BuggyOutputTest)
    (lastSnapshot : Option Snapshot) (codeEvalResult : CodeEvalResult) :
    (_getBuggyOutputTestFeedback failingTest lastSnapshot codeEvalResult).hintIndex =
      some (computeHintIndex failingTest lastSnapshot codeEvalResult) := rfl

/-- C4: hint selection is idempotent under unchanged resubmission: when the
previous snapshot carries an evaluation result, its feedback was hint-based
at index k, that feedback's first paragraph equals the current buggy test's
hint at index k, and the previous preprocessed source is textually identical
to the current one, the newly selected hint index is k. -/
theorem hintIndex_idempotent_on_unchanged_source
    (failingTest : BuggyOutputTest) (codeEvalResult prevCer : CodeEvalResult)
    (paragraphs : List Paragraph) (answerIsCorrect : Bool) (k : Nat)
    (firstParagraph : Paragraph)
    (hhead : paragraphs.head? = some firstParagraph)
    (hsame : failingTest.messages.get? k = some firstParagraph.content)
    (hcode : prevCer.preprocessedCode = codeEvalResult.preprocessedCode) :
    (_getBuggyOutputTestFeedback failingTest
      (some ⟨some prevCer, ⟨paragraphs, answerIsCorrect, some k⟩⟩)
      codeEvalResult).hintIndex = some k := by
  cases paragraphs with
  | nil => exact absurd hhead (by simp)
  | cons a l =>
    obtain rfl : a = firstParagraph := by simpa using hhead
    show some (if failingTest.messages.get? k = some a.content then
      (if prevCer.preprocessedCode = codeEvalResult.preprocessedCode
          ∨ k = failingTest.messages.length - 1 then k else k + 1) else 0) = some k
    rw [if_pos hsame, if_pos (Or.inl hcode)]

/-- Witness for C4: an unchanged resubmission with the same detected bug
keeps hint index 0. -/
theorem hintIndex_idempotent_on_unchanged_source_witness :
    (_getBuggyOutputTestFeedback ⟨["h0", "h1"]⟩
      (some ⟨some (mkCer "src"), ⟨[⟨ParagraphKind.text, "h0"⟩], false, some 0⟩⟩)
      (mkCer "src")).hintIndex = some 0 :=
  hintIndex_idempotent_on_unchanged_source ⟨["h0", "h1"]⟩ (mkCer "src") (mkCer "src")
    [⟨ParagraphKind.text, "h0"⟩] false 0 ⟨ParagraphKind.text, "h0"⟩ rfl rfl rfl

/-- C5: on a resubmission whose preprocessed source differs from the previous
snapshot's, with the same bug detected (the previous feedback's first
paragraph equals the current test's hint at the previous index k), the
selected hint index advances to k+1, except that it stays at k when k
already points at the last hint of the sequence. -/
theorem hintIndex_advances_on_changed_source
    (failingTest : BuggyOutputTest) (codeEvalResult prevCer : CodeEvalResult)
    (paragraphs : List Paragraph) (answerIsCorrect : Bool) (k : Nat)
    (firstParagraph : Paragraph)
    (hhead : paragraphs.head? = some firstParagraph)
    (hsame : failingTest.messages.get? k = some firstParagraph.content)
    (hcode : prevCer.preprocessedCode ≠ codeEvalResult.preprocessedCode) :
    (_getBuggyOutputTestFeedback failingTest
      (some ⟨some prevCer, ⟨paragraphs, answerIsCorrect, some k⟩⟩)
      codeEvalResult).hintIndex =
      some (if k = failingTest.messages.length - 1 then k else k + 1) := by
  cases paragraphs with
  | nil => exact absurd hhead (by simp)
  | cons a l =>
    obtain rfl : a = firstParagraph := by simpa using hhead
    show some (if failingTest.messages.get? k = some a.content then
      (if prevCer.preprocessedCode = codeEvalResult.preprocessedCode
          ∨ k = failingTest.messages.length - 1 then k else k + 1) else 0) =
      some (if k = failingTest.messages.length - 1 then k else k + 1)
    rw [if_pos hsame]
    by_cases hlast : k = failingTest.messages.length - 1
    · rw [if_pos (Or.inr hlast), if_pos hlast]
    · rw [if_neg (by simp [hcode, hlast]), if_neg hlast]

/-- Witness for C5: a changed resubmission of the same bug advances the hint
index from 0 to 1, and from the last index 1 it stays at 1. -/
theorem hintIndex_advances_on_changed_source_witness :
    (_getBuggyOutputTestFeedback ⟨["h0", "h1"]⟩
      (some ⟨some (mkCer "src1"), ⟨[⟨ParagraphKind.text, "h0"⟩], false, some 0⟩⟩)
      (mkCer "src2")).hintIndex = some 1 ∧
    (_getBuggyOutputTestFeedback ⟨["h0", "h1"]⟩
      (some ⟨some (mkCer "src2"), ⟨[⟨ParagraphKind.text, "h1"⟩], false, some 1⟩⟩)
      (mkCer "src3")).hintIndex = some 1 :=
  ⟨hintIndex_advances_on_changed_source ⟨["h0", "h1"]⟩ (mkCer "src2") (mkCer "src1")
      [⟨ParagraphKind.text, "h0"⟩] false 0 ⟨ParagraphKind.text, "h0"⟩ rfl rfl (by decide),
    hintIndex_advances_on_changed_source ⟨["h0", "h1"]⟩ (mkCer "src3") (mkCer "src2")
      [⟨ParagraphKind.text, "h1"⟩] false 1 ⟨ParagraphKind.text, "h1"⟩ rfl rfl (by decide)⟩

/-- C6: the selected hint index is 0 whenever there is no prior snapshot, or
the previous feedback was not hint-based (null hint index), or the previous
feedback's first paragraph differs from the current buggy test's hint string
at the previous hint index. -/
theorem hintIndex_resets_to_zero :
    (∀ (failingTest : BuggyOutputTest) (codeEvalResult : CodeEvalResult),
      (_getBuggyOutputTestFeedback failingTest none codeEvalResult).hintIndex = some 0) ∧
    (∀ (failingTest : BuggyOutputTest) (codeEvalResult : CodeEvalResult)
      (prevResult : Option CodeEvalResult) (paragraphs : List Paragraph)
      (answerIsCorrect : Bool),
      (_getBuggyOutputTestFeedback failingTest
        (some ⟨prevResult, ⟨paragraphs, answerIsCorrect, none⟩⟩)
        codeEvalResult).hintIndex = some 0) ∧
    (∀ (failingTest : BuggyOutputTest) (codeEvalResult : CodeEvalResult)
      (prevResult : Option CodeEvalResult) (paragraphs : List Paragraph)
      (answerIsCorrect : Bool) (k : Nat) (firstParagraph : Paragraph),
      paragraphs.head? = some firstParagraph →
      failingTest.messages.get? k ≠ some firstParagraph.content →
      (_getBuggyOutputTestFeedback failingTest
        (some ⟨prevResult, ⟨paragraphs, answerIsCorrect, some k⟩⟩)
        codeEvalResult).hintIndex = some 0) := by
  refine ⟨fun t cer => rfl, fun t cer prevResult paragraphs b => ?_,
    fun t cer prevResult paragraphs b k firstParagraph hhead hdiff => ?_⟩
  · cases prevResult <;> rfl
  · cases prevResult with
    | none => rfl
    | some prevCer =>
      cases paragraphs with
      | nil => exact absurd hhead (by simp)
      | cons a l =>
        obtain rfl : a = firstParagraph := by simpa using hhead
        show some (if t.messages.get? k = some a.content then
          (if prevCer.preprocessedCode = cer.preprocessedCode
              ∨ k = t.messages.length - 1 then k else k + 1) else 0) = some 0
        rw [if_neg hdiff]

/-- Witness for C6: no snapshot, a previous feedback that was not hint-based,
and a previous feedback hinting a different bug each select hint index 0. -/
theorem hintIndex_resets_to_zero_witness :
    (_getBuggyOutputTestFeedback ⟨["h0", "h1"]⟩ none (mkCer "src")).hintIndex = some 0 ∧
    (_getBuggyOutputTestFeedback ⟨["h0", "h1"]⟩
      (some ⟨some (mkCer "src"), ⟨[⟨ParagraphKind.text, "other feedback"⟩], false, none⟩⟩)
      (mkCer "src")).hintIndex = some 0 ∧
    (_getBuggyOutputTestFeedback ⟨["h0", "h1"]⟩
      (some ⟨some (mkCer "src"),
        ⟨[⟨ParagraphKind.text, "a different bug hint"⟩], false, some 0⟩⟩)
      (mkCer "src")).hintIndex = some 0 :=
  ⟨hintIndex_resets_to_zero.1 ⟨["h0", "h1"]⟩ (mkCer "src"),
    hintIndex_resets_to_zero.2.1 ⟨["h0", "h1"]⟩ (mkCer "src") (some (mkCer "src"))
      [⟨ParagraphKind.text, "other feedback"⟩] false,
    hintIndex_resets_to_zero.2.2 ⟨["h0", "h1"]⟩ (mkCer "src") (some (mkCer "src"))
      [⟨ParagraphKind.text, "a different bug hint"⟩] false 0
      ⟨ParagraphKind.text, "a different bug hint"⟩ rfl (by decide)⟩

/-- C10: an error message that starts with TimeLimitError is returned
unchanged by getErrorString; any other message with a non-empty coordinate
list gets " on line N" appended, N being the first coordinate's line
number. -/
theorem getErrorString_cases :
    (∀ t : ErrorTraceback, strStartsWith t.errorMessage "TimeLimitError" = true →
      t.getErrorString = some t.errorMessage) ∧
    (∀ (t : ErrorTraceback) (c : TracebackCoordinates) (cs : List TracebackCoordinates),
      strStartsWith t.errorMessage "TimeLimitError" = false →
      t.tracebackCoordinates = c :: cs →
      t.getErrorString = some (t.errorMessage ++ " on line " ++ toString c.lineNumber)) := by
  constructor
  · intro t h
    simp [ErrorTraceback.getErrorString, h]
  · intro t c cs h hcoords
    simp [ErrorTraceback.getErrorString, h, hcoords]

/-- Witness for C10: a time-limit message passes through unchanged; a
division-by-zero message with first coordinate line 7 gains " on line 7". -/
theorem getErrorString_cases_witness :
    ErrorTraceback.getErrorString ⟨"TimeLimitError: a time limit was exceeded", []⟩ =
      some "TimeLimitError: a time limit was exceeded" ∧
    ErrorTraceback.getErrorString
      ⟨"ZeroDivisionError: integer division or modulo by zero", [⟨7, 4⟩]⟩ =
      some ("ZeroDivisionError: integer division or modulo by zero" ++ " on line " ++
        toString (7 : Nat)) :=
  ⟨getErrorString_cases.1 ⟨"TimeLimitError: a time limit was exceeded", []⟩ (by decide),
    getErrorString_cases.2 ⟨"ZeroDivisionError: integer division or modulo by zero",
      [⟨7, 4⟩]⟩ ⟨7, 4⟩ [] (by decide) rfl⟩

/-- C8, evaluated at the failing input: rendering a value of an unrecognized
kind (here an opaque value tagged someOpaqueValue) throws, but the raised
message is the bare constant - the offending value is not named in it,
because the second argument of the JavaScript Error constructor is
discarded.  The second conjunct states that the tag nowhere occurs in the
message. -/
theorem humanReadable_error_omits_value :
    _jsToHumanReadable (JSValue.other "someOpaqueValue") =
      Except.error "Could not make the following object human-readable: " ∧
    ¬ ("someOpaqueValue".data <:+:
      ("Could not make the following object human-readable: ").data) := by
  constructor
  · simp [_jsToHumanReadable]
  · decide

/-- The evaluation result with its three test-result sequences replaced and
everything else kept; used to state that the error path ignores test
results. -/
def withResults (cer : CodeEvalResult) (b : List (List Bool)) (o : List (List JSValue))
    (p : List (List String)) : CodeEvalResult :=
  { cer with
    buggyOutputTestResults := b
    correctnessTestResults := o
    performanceTestResults := p }

/-- Any successfully produced runtime-error feedback consists of exactly two
paragraphs (the prose introduction and the trace code block). -/
theorem runtimeFeedback_two_paragraphs (codeEvalResult : CodeEvalResult)
    (rawCodeLineIndexes : List (Option Nat)) (fb : Feedback)
    (h : _getRuntimeErrorFeedback codeEvalResult rawCodeLineIndexes = .ok fb) :
    fb.paragraphs.length = 2 := by
  unfold _getRuntimeErrorFeedback at h
  cases hri : _jsToHumanReadable codeEvalResult.errorInput with
  | error e => rw [hri] at h; cases h
  | ok inputStr =>
    rw [hri] at h
    cases hfx : fixErrorString (codeEvalResult.errorString.getD "") rawCodeLineIndexes with
    | error e => simp [hfx] at h
    | ok fixed =>
      simp only [hfx] at h
      cases h
      rfl

/-- C2: with a truthy error string the selected feedback depends only on
that string: a TimeLimitError prefix yields the timeout case parameterized
with the configured time limit, an ExternalError: RangeError prefix yields
the infinite-recursion case, anything else the runtime-error case; the test
results play no role; and the three cases produce pairwise distinct
paragraph sequences. -/
theorem error_string_selects_feedback (tasks : List TieTask)
    (codeEvalResult : CodeEvalResult) (rawCodeLineIndexes : List (Option Nat))
    (lastSnapshot : Option Snapshot) (timeoutSeconds : Nat)
    (h : errTruthy codeEvalResult = true) :
    (strStartsWith (codeEvalResult.errorString.getD "") "TimeLimitError" = true →
      _getFeedbackWithoutReinforcement tasks codeEvalResult rawCodeLineIndexes lastSnapshot
        timeoutSeconds = .ok (_getTimeoutErrorFeedback timeoutSeconds)) ∧
    (strStartsWith (codeEvalResult.errorString.getD "") "TimeLimitError" = false →
      strStartsWith (codeEvalResult.errorString.getD "") "ExternalError: RangeError" = true →
      _getFeedbackWithoutReinforcement tasks codeEvalResult rawCodeLineIndexes lastSnapshot
        timeoutSeconds = .ok _getInfiniteLoopFeedback) ∧
    (strStartsWith (codeEvalResult.errorString.getD "") "TimeLimitError" = false →
      strStartsWith (codeEvalResult.errorString.getD "") "ExternalError: RangeError" = false →
      _getFeedbackWithoutReinforcement tasks codeEvalResult rawCodeLineIndexes lastSnapshot
        timeoutSeconds = _getRuntimeErrorFeedback codeEvalResult rawCodeLineIndexes) ∧
    (∀ (otherTasks : List TieTask) (otherSnapshot : Option Snapshot)
      (b : List (List Bool)) (o : List (List JSValue)) (p : List (List String)),
      _getFeedbackWithoutReinforcement otherTasks (withResults codeEvalResult b o p)
        rawCodeLineIndexes otherSnapshot timeoutSeconds =
      _getFeedbackWithoutReinforcement tasks codeEvalResult rawCodeLineIndexes lastSnapshot
        timeoutSeconds) ∧
    ((_getTimeoutErrorFeedback timeoutSeconds).paragraphs =
      [⟨ParagraphKind.text, "Your program's exceeded the time limit ("
        ++ toString timeoutSeconds
        ++ " seconds) we've set. Can you try to make it run more efficiently?"⟩]) ∧
    ((_getTimeoutErrorFeedback timeoutSeconds).paragraphs ≠
      _getInfiniteLoopFeedback.paragraphs) ∧
    (∀ fb : Feedback,
      _getRuntimeErrorFeedback codeEvalResult rawCodeLineIndexes = .ok fb →
      fb.paragraphs ≠ (_getTimeoutErrorFeedback timeoutSeconds).paragraphs ∧
      fb.paragraphs ≠ _getInfiniteLoopFeedback.paragraphs) := by
  refine ⟨fun hTL => ?_, fun hTL hRE => ?_, fun hTL hRE => ?_,
    fun otherTasks otherSnapshot b o p => ?_, rfl, fun hEq => ?_, fun fb hfb => ?_⟩
  · simp [_getFeedbackWithoutReinforcement, h, hTL]
  · simp [_getFeedbackWithoutReinforcement, h, hTL, hRE]
  · simp [_getFeedbackWithoutReinforcement, h, hTL, hRE]
  · have hw : errTruthy (withResults codeEvalResult b o p) = true := h
    have hes : (withResults codeEvalResult b o p).errorString = codeEvalResult.errorString :=
      rfl
    have hrt : _getRuntimeErrorFeedback (withResults codeEvalResult b o p) rawCodeLineIndexes
        = _getRuntimeErrorFeedback codeEvalResult rawCodeLineIndexes := rfl
    by_cases hTL : strStartsWith (codeEvalResult.errorString.getD "") "TimeLimitError" <;>
      by_cases hRE : strStartsWith (codeEvalResult.errorString.getD "")
        "ExternalError: RangeError" <;>
      simp [_getFeedbackWithoutReinforcement, h, hw, hes, hrt, hTL, hRE]
  · have h2 : (some 'Y' : Option Char) = some 'L' :=
      congrArg (fun l => ((l.headD ⟨ParagraphKind.text, ""⟩).content).data.head?) hEq
    exact absurd h2 (by decide)
  · have hlen : fb.paragraphs.length = 2 :=
      runtimeFeedback_two_paragraphs codeEvalResult rawCodeLineIndexes fb hfb
    constructor
    · intro hEq
      have h2 := congrArg List.length hEq
      rw [hlen] at h2
      have h1 : (_getTimeoutErrorFeedback timeoutSeconds).paragraphs.length = 1 := rfl
      rw [h1] at h2
      exact absurd h2 (by decide)
    · intro hEq
      have h2 := congrArg List.length hEq
      rw [hlen] at h2
      have h1 : _getInfiniteLoopFeedback.paragraphs.length = 1 := rfl
      rw [h1] at h2
      exact absurd h2 (by decide)

/-- Witness for C2: a TimeLimitError string yields exactly the timeout
feedback, for an evaluation result that also carries (ignored) failing test
results. -/
theorem error_string_selects_feedback_witness :
    _getFeedbackWithoutReinforcement []
      { errorString := some "TimeLimitError: the time limit was exceeded",
        errorInput := JSValue.null, preprocessedCode := "src",
        buggyOutputTestResults := [[true]], correctnessTestResults := [[JSValue.num 0]],
        performanceTestResults := [[]] } [] none 3 =
      .ok (_getTimeoutErrorFeedback 3) :=
  (error_string_selects_feedback []
    { errorString := some "TimeLimitError: the time limit was exceeded",
      errorInput := JSValue.null, preprocessedCode := "src",
      buggyOutputTestResults := [[true]], correctnessTestResults := [[JSValue.num 0]],
      performanceTestResults := [[]] } [] none 3 (by decide)).1 (by decide)

/-- Chaining the tab pass and the newline pass equals the single-pass
escaping of the specification, at the level of character lists. -/
theorem foldr_escape_chain (l : List Char) :
    List.foldr (fun a acc => if a = '\n' then ['\\', 'n'] ++ acc else a :: acc) []
      (List.foldr (fun a acc => if a = '\t' then ['\\', 't'] ++ acc else a :: acc) [] l) =
    List.foldr
      (fun c acc =>
        (if c = '\t' then ['\\', 't']
         else if c = '\n' then ['\\', 'n']
         else [c]) ++ acc) [] l := by
  induction l with
  | nil => rfl
  | cons a l ih =>
    simp only [List.cons_append, List.nil_append] at ih
    by_cases ht : a = '\t'
    · subst ht
      simp [List.foldr, ih]
    · by_cases hn : a = '\n'
      · subst hn
        simp [List.foldr, ih]
      · simp [List.foldr, ht, hn, ih]

/-- The code's two-pass escaping equals the specification's one-pass
escaping. -/
theorem escapeCode_eq_specEscape (s : String) : escapeCode s = specEscape s :=
  congrArg String.mk (foldr_escape_chain s.data)

mutual

/-- On every well-formed value the source renderer succeeds and produces
exactly the specification's rendering. -/
theorem render_eq_specRender (v : JSValue) (h : v.wellFormed = true) :
    _jsToHumanReadable v = .ok (specRender v) := by
  cases v with
  | null => simp [_jsToHumanReadable, specRender]
  | undef => simp [_jsToHumanReadable, specRender]
  | str s => simp [_jsToHumanReadable, specRender, escapeCode_eq_specEscape]
  | num n => simp [_jsToHumanReadable, specRender]
  | bool b => simp [_jsToHumanReadable, specRender]
  | arr xs =>
    have hxs : wellFormedValues xs = true := by
      simpa [JSValue.wellFormed] using h
    simp [_jsToHumanReadable, specRender, renderValues_eq_specRenderValues xs hxs]
  | dict es =>
    have hes : wellFormedPairs es = true := by
      simpa [JSValue.wellFormed] using h
    simp [_jsToHumanReadable, specRender, renderPairs_eq_specRenderPairs es hes]
  | other s => simp [JSValue.wellFormed] at h

/-- Element-wise version of render_eq_specRender for sequences. -/
theorem renderValues_eq_specRenderValues (xs : List JSValue)
    (h : wellFormedValues xs = true) : renderValues xs = .ok (specRenderValues xs) := by
  cases xs with
  | nil => simp [renderValues, specRenderValues]
  | cons x xs =>
    have h1 : x.wellFormed = true := by
      simp [wellFormedValues] at h
      exact h.1
    have h2 : wellFormedValues xs = true := by
      simp [wellFormedValues] at h
      exact h.2
    simp [renderValues, specRenderValues, render_eq_specRender x h1,
      renderValues_eq_specRenderValues xs h2]

/-- Entry-wise version of render_eq_specRender for mappings. -/
theorem renderPairs_eq_specRenderPairs (es : List (String × JSValue))
    (h : wellFormedPairs es = true) : renderPairs es = .ok (specRenderPairs es) := by
  cases es with
  | nil => simp [renderPairs, specRenderPairs]
  | cons e es =>
    obtain ⟨k, v⟩ := e
    have h1 : v.wellFormed = true := by
      simp [wellFormedPairs] at h
      exact h.1
    have h2 : wellFormedPairs es = true := by
      simp [wellFormedPairs] at h
      exact h.2
    simp [renderPairs, specRenderPairs, render_eq_specRender v h1,
      renderPairs_eq_specRenderPairs es h2, _jsToHumanReadable, specRender,
      escapeCode_eq_specEscape]

end

/-- Spec-side sequence rendering is the map of the spec renderer. -/
theorem specRenderValues_eq_map (xs : List JSValue) :
    specRenderValues xs = xs.map specRender := by
  induction xs with
  | nil => simp [specRenderValues]
  | cons x xs ih => simp [specRenderValues, ih]

/-- Spec-side mapping rendering renders each entry as quoted key, colon,
space, value, in iteration order. -/
theorem specRenderPairs_eq_map (es : List (String × JSValue)) :
    specRenderPairs es =
      es.map (fun e => specRender (JSValue.str e.1) ++ ": " ++ specRender e.2) := by
  induction es with
  | nil => simp [specRenderPairs]
  | cons e es ih =>
    obtain ⟨k, v⟩ := e
    simp [specRenderPairs, ih]

/-- C7: on all values built from absent values, strings, numbers, booleans,
sequences and mappings the renderer produces exactly the fixed notation: None
for absent values; the string in double quotes with tabs and newlines escaped
to the two-character sequences backslash-t and backslash-n; True/False for
booleans; bracketed comma-joined recursively rendered elements for sequences;
brace-delimited comma-joined key-colon-value pairs, in iteration order, for
mappings. -/
theorem renderer_matches_spec :
    specRender JSValue.null = "None" ∧
    specRender JSValue.undef = "None" ∧
    (∀ s : String, specRender (JSValue.str s) = "\"" ++ specEscape s ++ "\"") ∧
    (∀ b : Bool, specRender (JSValue.bool b) = if b then "True" else "False") ∧
    (∀ xs : List JSValue,
      specRender (JSValue.arr xs) =
        "[" ++ String.intercalate ", " (xs.map specRender) ++ "]") ∧
    (∀ es : List (String × JSValue),
      specRender (JSValue.dict es) =
        "\x7b" ++ String.intercalate ", "
          (es.map (fun e => specRender (JSValue.str e.1) ++ ": " ++ specRender e.2))
          ++ "\x7d") ∧
    (∀ v : JSValue, v.wellFormed = true → _jsToHumanReadable v = .ok (specRender v)) := by
  refine ⟨by simp [specRender], by simp [specRender], fun s => by simp [specRender],
    fun b => by simp [specRender], fun xs => ?_, fun es => ?_,
    fun v h => render_eq_specRender v h⟩
  · simp [specRender, specRenderValues_eq_map]
  · simp [specRender, specRenderPairs_eq_map]

/-- Witness for C7: a nested mapping holding a sequence, an absent value and
a string with a tab renders to exactly the spec's notation. -/
theorem renderer_matches_spec_witness :
    _jsToHumanReadable
      (JSValue.dict [("a", JSValue.arr [JSValue.num 1, JSValue.null]),
        ("s", JSValue.str "x\ty")]) =
      .ok (specRender (JSValue.dict [("a", JSValue.arr [JSValue.num 1, JSValue.null]),
        ("s", JSValue.str "x\ty")])) :=
  renderer_matches_spec.2.2.2.2.2.2
    (JSValue.dict [("a", JSValue.arr [JSValue.num 1, JSValue.null]),
      ("s", JSValue.str "x\ty")])
    (by simp [JSValue.wellFormed, wellFormedValues, wellFormedPairs])

/-- The spec rendering of the witness value, evaluated: braces, iteration
order, bracketed sequence, None, and the escaped tab are all visible. -/
theorem renderer_matches_spec_witness_value :
    specRender (JSValue.dict [("a", JSValue.arr [JSValue.num 1, JSValue.null]),
      ("s", JSValue.str "x\ty")]) = "\x7b\"a\": [1, None], \"s\": \"x\\ty\"\x7d" := by
  simp [specRender, specRenderValues, specRenderPairs, specEscape]
  rfl

/-- takeWhile runs through a block that wholly satisfies the predicate. -/
theorem takeWhile_append_all {α : Type} (P : α → Bool) (l1 l2 : List α)
    (h : ∀ a ∈ l1, P a = true) :
    (l1 ++ l2).takeWhile P = l1 ++ l2.takeWhile P := by
  induction l1 with
  | nil => simp
  | cons a l ih =>
    simp only [List.cons_append, List.takeWhile_cons, h a (by simp), if_true]
    rw [ih (fun x hx => h x (by simp [hx]))]

/-- A list is a Boolean prefix of itself followed by anything. -/
theorem isPrefixOf_append_right {α : Type} [BEq α] [LawfulBEq α] (l t : List α) :
    l.isPrefixOf (l ++ t) = true := by
  induction l with
  | nil => cases t <;> rfl
  | cons a l ih => simp [List.isPrefixOf, ih]

/-- Evaluation of the line-reference substitution on an error string of the
shape prefix ++ "line " ++ digits: the digits parse to the one-based line
number n; index n-1 out of the bounds of the line map throws the
out-of-range error, and otherwise the trailing "line N" is replaced
according to the mapped entry. -/
theorem fixErrorString_parse (p ds : List Char) (raw : List (Option Nat)) (n : Nat)
    (hne : ds ≠ []) (hdig : ∀ c ∈ ds, c.isDigit = true)
    (hn : digitsToNat ds = n) :
    fixErrorString ⟨p ++ "line ".data ++ ds⟩ raw =
      (if (n : Int) - 1 < 0 ∨ (raw.length : Int) ≤ (n : Int) - 1 then
        .error ("Line number index out of range: " ++ toString ((n : Int) - 1))
      else
        .ok (String.mk p ++
          (match raw.getD ((n : Int) - 1).toNat none with
            | none => "a line in the test code"
            | some m => "line " ++ toString (m + 1)))) := by
  have hrev : (⟨p ++ "line ".data ++ ds⟩ : String).data.reverse =
      ds.reverse ++ ("line ".data.reverse ++ p.reverse) := by
    simp [List.reverse_append]
  have htake : (⟨p ++ "line ".data ++ ds⟩ : String).data.reverse.takeWhile Char.isDigit =
      ds.reverse := by
    rw [hrev, takeWhile_append_all Char.isDigit ds.reverse _
      (fun c hc => hdig c (List.mem_reverse.mp hc))]
    have : ("line ".data.reverse ++ p.reverse).takeWhile Char.isDigit = [] := by
      show ((' ' :: "enil".data) ++ p.reverse).takeWhile Char.isDigit = []
      simp [List.takeWhile_cons]
    rw [this, List.append_nil]
  have hds : ((⟨p ++ "line ".data ++ ds⟩ : String).data.reverse.takeWhile
      Char.isDigit).reverse = ds := by
    rw [htake, List.reverse_reverse]
  have hdrop : (⟨p ++ "line ".data ++ ds⟩ : String).data.reverse.drop ds.length =
      "line ".data.reverse ++ p.reverse := by
    rw [hrev]
    have : ds.length = ds.reverse.length := (List.length_reverse ds).symm
    rw [this, List.drop_left]
  have hemp : ds.isEmpty = false := by
    cases ds with
    | nil => exact absurd rfl hne
    | cons a l => rfl
  have hdroplen : ("line ".data.reverse ++ p.reverse).drop "line ".data.length =
      p.reverse := by
    have h5 : "line ".data.length = "line ".data.reverse.length := by simp
    rw [h5, List.drop_left]
  simp only [fixErrorString, hds, hemp, Bool.false_eq_true, if_false, hdrop,
    isPrefixOf_append_right, if_true, hdroplen, List.reverse_reverse, hn]

/-- C9: runtime-error feedback remaps the trailing "line N" reference
through the source-line map.  When index N-1 carries the harness sentinel
(null), the rendered trace replaces "line N" with "a line in the test code";
when N-1 falls outside the bounds of the line map, the function fails hard
with the out-of-range error instead of producing feedback. -/
theorem runtime_error_line_remap (codeEvalResult : CodeEvalResult)
    (raw : List (Option Nat)) (p ds : List Char) (n : Nat) (inputStr : String)
    (hs : codeEvalResult.errorString = some ⟨p ++ "line ".data ++ ds⟩)
    (hne : ds ≠ []) (hdig : ∀ c ∈ ds, c.isDigit = true)
    (hn : digitsToNat ds = n)
    (hin : _jsToHumanReadable codeEvalResult.errorInput = .ok inputStr) :
    (1 ≤ n → raw.get? (n - 1) = some none →
      _getRuntimeErrorFeedback codeEvalResult raw =
        .ok ⟨[⟨ParagraphKind.text,
          "Looks like your code had a runtime error" ++
            (" when evaluating the input " ++ inputStr) ++ ". Here's the trace:"⟩,
          ⟨ParagraphKind.code, String.mk p ++ "a line in the test code"⟩], false, none⟩) ∧
    (n = 0 ∨ raw.length < n →
      _getRuntimeErrorFeedback codeEvalResult raw =
        .error ("Line number index out of range: " ++ toString ((n : Int) - 1))) := by
  constructor
  · intro h1 hmap
    have hlt : n - 1 < raw.length := by
      by_contra hge
      rw [List.get?_eq_none.mpr (Nat.le_of_not_lt hge)] at hmap
      cases hmap
    have hcond : ¬ ((n : Int) - 1 < 0 ∨ (raw.length : Int) ≤ (n : Int) - 1) := by
      push_neg
      constructor <;> [omega; omega]
    have htoNat : ((n : Int) - 1).toNat = n - 1 := by omega
    have hgetD : raw.getD (n - 1) none = none := by
      have hmap2 : raw[n - 1]? = some none := by
        rw [← List.get?_eq_getElem?]
        exact hmap
      simp [List.getD, hmap2]
    unfold _getRuntimeErrorFeedback
    rw [hin, hs]
    simp only [Option.getD_some]
    rw [fixErrorString_parse p ds raw n hne hdig hn, if_neg hcond, htoNat, hgetD]
    simp [Feedback.create, Feedback.appendTextParagraph, Feedback.appendCodeParagraph]
  · intro hout
    have hcond : (n : Int) - 1 < 0 ∨ (raw.length : Int) ≤ (n : Int) - 1 := by
      rcases hout with h0 | hgt
      · left; omega
      · right; omega
    unfold _getRuntimeErrorFeedback
    rw [hin, hs]
    simp only [Option.getD_some]
    rw [fixErrorString_parse p ds raw n hne hdig hn, if_pos hcond]

/-- Witness for C9: the error string "ZeroDivisionError: integer division or
modulo by zero on line 7" with a seven-entry line map whose index 6 is the
harness sentinel renders "a line in the test code"; with a three-entry line
map the same error string aborts with the out-of-range message. -/
theorem runtime_error_line_remap_witness :
    _getRuntimeErrorFeedback
      { mkCer "src" with
        errorString := some "ZeroDivisionError: integer division or modulo by zero on line 7" }
      [some 0, some 1, some 2, some 3, some 4, some 5, none] =
      .ok ⟨[⟨ParagraphKind.text,
        "Looks like your code had a runtime error" ++
          (" when evaluating the input " ++ "None") ++ ". Here's the trace:"⟩,
        ⟨ParagraphKind.code,
          String.mk ("ZeroDivisionError: integer division or modulo by zero on ").data ++
            "a line in the test code"⟩], false, none⟩ ∧
    _getRuntimeErrorFeedback
      { mkCer "src" with
        errorString := some "ZeroDivisionError: integer division or modulo by zero on line 7" }
      [some 0, some 1, some 2] =
      .error ("Line number index out of range: " ++ toString ((7 : Int) - 1)) := by
  constructor
  · exact (runtime_error_line_remap _ _
      ("ZeroDivisionError: integer division or modulo by zero on ").data ['7'] 7 "None"
      rfl (by decide) (by decide) (by decide)
      (by simp [mkCer, _jsToHumanReadable])).1 (by decide) rfl
  · exact (runtime_error_line_remap _ _
      ("ZeroDivisionError: integer division or modulo by zero on ").data ['7'] 7 "None"
      rfl (by decide) (by decide) (by decide)
      (by simp [mkCer, _jsToHumanReadable])).2 (by decide)

/-- Searching positions 0..n: position 0 first, then the shifted search. -/
theorem range_find?_succ (p : Nat → Bool) (n : Nat) :
    (List.range (n + 1)).find? p =
      if p 0 then some 0 else ((List.range n).find? (fun j => p (j + 1))).map (· + 1) := by
  rw [List.range_succ_eq_map]
  by_cases h0 : p 0 = true
  · rw [List.find?_cons_of_pos _ h0, if_pos h0]
  · rw [List.find?_cons_of_neg _ h0, if_neg h0, List.find?_map]
    rfl

/-- The default head is position 0 with the same default. -/
theorem headD_eq_getD_zero {α : Type} (l : List α) (d : α) : l.headD d = l.getD 0 d := by
  cases l <;> rfl

/-- Reading the tail at j is reading the list at j+1. -/
theorem tail_getD {α : Type} (l : List α) (j : Nat) (d : α) :
    l.tail.getD j d = l.getD (j + 1) d := by
  cases l <;> rfl

/-- Reading the tail at j is reading the list at j+1 (optional form). -/
theorem tail_get? {α : Type} (l : List α) (j : Nat) : l.tail.get? j = l.get? (j + 1) := by
  cases l <;> rfl

/-- The buggy-output inner loop finds exactly the first position, in
ascending order, whose result flag is true. -/
theorem firstFailingBuggy_eq_spec (tests : List BuggyOutputTest) :
    ∀ row : List Bool,
      firstFailingBuggy tests row =
        ((List.range tests.length).find? (fun j => row.getD j false)).map
          (fun j => tests.getD j default) := by
  induction tests with
  | nil => intro row; rfl
  | cons t ts ih =>
    intro row
    rw [List.length_cons, range_find?_succ]
    simp only [firstFailingBuggy, headD_eq_getD_zero]
    by_cases h0 : row.getD 0 false = true
    · rw [if_pos h0, if_pos h0]
      rfl
    · rw [if_neg h0, if_neg h0, Option.map_map, ih row.tail]
      simp only [tail_getD]
      rfl

/-- The correctness inner loop finds exactly the first position, in
ascending order, whose observed output fails matchesOutput, and reports that
test together with the observed output. -/
theorem firstFailingCorrectness_eq_spec (tests : List CorrectnessTest) :
    ∀ row : List JSValue,
      firstFailingCorrectness tests row =
        ((List.range tests.length).find?
          (fun j => !((tests.getD j default).matchesOutput (row.getD j JSValue.undef)))).map
          (fun j => (tests.getD j default, row.getD j JSValue.undef)) := by
  induction tests with
  | nil => intro row; rfl
  | cons t ts ih =>
    intro row
    rw [List.length_cons, range_find?_succ]
    simp only [firstFailingCorrectness, headD_eq_getD_zero]
    by_cases h0 : t.matchesOutput (row.getD 0 JSValue.undef) = true
    · rw [if_pos h0, if_neg ?hneg, Option.map_map, ih row.tail]
      case hneg =>
        intro hc
        rw [List.getD_cons_zero, h0] at hc
        exact absurd hc (by simp)
      simp only [tail_getD]
      rfl
    · rw [if_neg h0, if_pos ?hpos]
      case hpos =>
        rw [List.getD_cons_zero]
        cases hM : t.matchesOutput (row.getD 0 JSValue.undef) with
        | false => rfl
        | true => exact absurd hM h0
      rfl

/-- The performance inner loop finds exactly the first position, in
ascending order, whose observed class differs from the expected class, and
reports the expected class. -/
theorem firstFailingPerformance_eq_spec (tests : List PerformanceTest) :
    ∀ row : List String,
      firstFailingPerformance tests row =
        ((List.range tests.length).find?
          (fun j => !(row.get? j == some (tests.getD j default).expectedPerformance))).map
          (fun j => (tests.getD j default).expectedPerformance) := by
  induction tests with
  | nil => intro row; rfl
  | cons t ts ih =>
    intro row
    rw [List.length_cons, range_find?_succ]
    simp only [firstFailingPerformance]
    by_cases h0 : row.head? = some t.expectedPerformance
    · rw [if_pos h0, if_neg ?hneg, Option.map_map, ih row.tail]
      case hneg =>
        intro hc
        rw [List.getD_cons_zero, List.get?_zero, h0] at hc
        exact absurd hc (by simp)
      simp only [tail_get?]
      rfl
    · rw [if_neg h0, if_pos ?hpos]
      case hpos =>
        rw [List.getD_cons_zero, List.get?_zero]
        cases hM : row.head? == some t.expectedPerformance with
        | false => rfl
        | true => exact absurd (beq_iff_eq.mp hM) h0
      rfl

/-- The source's task scan computes exactly the feedback the specification
assigns to the first failing test in scan order. -/
theorem scanTasks_eq_spec (lastSnapshot : Option Snapshot) (codeEvalResult : CodeEvalResult) :
    ∀ (tasks : List TieTask) (buggyRows : List (List Bool))
      (observedRows : List (List JSValue)) (performanceRows : List (List String)),
      scanTasks lastSnapshot codeEvalResult tasks buggyRows observedRows performanceRows =
        feedbackForFailure lastSnapshot codeEvalResult
          (specFirstFailing tasks buggyRows observedRows performanceRows) := by
  intro tasks
  induction tasks with
  | nil => intro buggyRows observedRows performanceRows; rfl
  | cons task ts ih =>
    intro buggyRows observedRows performanceRows
    unfold scanTasks specFirstFailing specTaskFirstFailure
    rw [firstFailingBuggy_eq_spec, firstFailingCorrectness_eq_spec,
      firstFailingPerformance_eq_spec]
    cases hb : (List.range task.buggyOutputTests.length).find?
        (fun j => (buggyRows.headD []).getD j false) with
    | some j => rfl
    | none =>
      simp only [Option.map_none']
      cases hc : (List.range task.correctnessTests.length).find?
          (fun j => !((task.correctnessTests.getD j default).matchesOutput
            ((observedRows.headD []).getD j JSValue.undef))) with
      | some j => rfl
      | none =>
        simp only [Option.map_none']
        cases hp : (List.range task.performanceTests.length).find?
            (fun j => !((performanceRows.headD []).get? j ==
              some (task.performanceTests.getD j default).expectedPerformance)) with
        | some j => rfl
        | none =>
          simp only [Option.map_none']
          exact ih buggyRows.tail observedRows.tail performanceRows.tail

/-- C1: for every non-erroring evaluation result the produced feedback is the
one the specification assigns to the first failing test in scan order: tasks
in original order, buggy-output tests, then correctness tests, then
performance tests within each task; a buggy-output test fails when its
result flag is true, a correctness test fails when the observed output
matches no allowed output, a performance test fails when the observed class
differs from the expected class; when nothing fails the completion feedback
results. -/
theorem scan_order_selects_first_failure (tasks : List TieTask)
    (codeEvalResult : CodeEvalResult) (rawCodeLineIndexes : List (Option Nat))
    (lastSnapshot : Option Snapshot) (timeoutSeconds : Nat)
    (h : errTruthy codeEvalResult = false) :
    _getFeedbackWithoutReinforcement tasks codeEvalResult rawCodeLineIndexes lastSnapshot
      timeoutSeconds =
      feedbackForFailure lastSnapshot codeEvalResult
        (specFirstFailing tasks codeEvalResult.buggyOutputTestResults
          codeEvalResult.correctnessTestResults codeEvalResult.performanceTestResults) := by
  unfold _getFeedbackWithoutReinforcement
  rw [h]
  simp only [Bool.false_eq_true, if_false]
  exact scanTasks_eq_spec lastSnapshot codeEvalResult tasks _ _ _

/-- Witness for C1: one task whose single correctness test fails (output 2
against allowed output 1) receives the correctness feedback the
specification assigns to that first failing test. -/
theorem scan_order_selects_first_failure_witness :
    _getFeedbackWithoutReinforcement
      [⟨[], [⟨JSValue.num 1, [JSValue.num 1]⟩], [], none⟩]
      { mkCer "src" with correctnessTestResults := [[JSValue.num 2]] } [] none 3 =
      feedbackForFailure none
        { mkCer "src" with correctnessTestResults := [[JSValue.num 2]] }
        (specFirstFailing [⟨[], [⟨JSValue.num 1, [JSValue.num 1]⟩], [], none⟩]
          [] [[JSValue.num 2]] []) :=
  scan_order_selects_first_failure
    [⟨[], [⟨JSValue.num 1, [JSValue.num 1]⟩], [], none⟩]
    { mkCer "src" with correctnessTestResults := [[JSValue.num 2]] } [] none 3 rfl

/-- Two tasks for the cross-task priority question: the first task has one
failing correctness test and no buggy-output tests, the second task has one
failing buggy-output test. -/
def cexTasks : List TieTask :=
  [⟨[], [⟨JSValue.num 1, [JSValue.num 1]⟩], [], none⟩,
   ⟨[⟨["h"]⟩], [], [], none⟩]

/-- The evaluation result for cexTasks: no error, observed output 2 against
allowed output 1 in task 1, buggy-output flag true in task 2. -/
def cexCer : CodeEvalResult :=
  { errorString := none, errorInput := JSValue.null, preprocessedCode := "src",
    buggyOutputTestResults := [[], [true]],
    correctnessTestResults := [[JSValue.num 2], []],
    performanceTestResults := [[], []] }

/-- Counterexample to C3 as stated: a non-erroring evaluation result with a
failing buggy-output test (task 2) nevertheless receives the correctness
feedback of task 1 - the feedback of the earlier task wins, its hint index
is null, and it differs from the feedback of the only buggy-output test
present, which would carry hint index 0.  Cross-task outranking of
buggy-output detections does not hold. -/
theorem buggy_does_not_outrank_across_tasks :
    errTruthy cexCer = false ∧
    (cexCer.buggyOutputTestResults.getD 1 []).getD 0 false = true ∧
    _getFeedbackWithoutReinforcement cexTasks cexCer [] none 3 =
      .ok ⟨[⟨ParagraphKind.text, "Your code produced the following result:"⟩,
        ⟨ParagraphKind.code, "Input: 1\nOutput: 2"⟩,
        ⟨ParagraphKind.text, "However, the expected output is:"⟩,
        ⟨ParagraphKind.code, "1"⟩,
        ⟨ParagraphKind.text, "Could you fix this?"⟩], false, none⟩ ∧
    _getFeedbackWithoutReinforcement cexTasks cexCer [] none 3 ≠
      .ok (_getBuggyOutputTestFeedback ⟨["h"]⟩ none cexCer) ∧
    (_getBuggyOutputTestFeedback ⟨["h"]⟩ none cexCer).hintIndex = some 0 := by
  have hres : _getFeedbackWithoutReinforcement cexTasks cexCer [] none 3 =
      .ok ⟨[⟨ParagraphKind.text, "Your code produced the following result:"⟩,
        ⟨ParagraphKind.code, "Input: 1\nOutput: 2"⟩,
        ⟨ParagraphKind.text, "However, the expected output is:"⟩,
        ⟨ParagraphKind.code, "1"⟩,
        ⟨ParagraphKind.text, "Could you fix this?"⟩], false, none⟩ := by
    simp only [_getFeedbackWithoutReinforcement, cexTasks, cexCer, errTruthy, strTruthy,
      scanTasks, firstFailingBuggy, firstFailingCorrectness, CorrectnessTest.matchesOutput,
      _getCorrectnessTestFeedback, CorrectnessTest.getAnyAllowedOutput,
      Feedback.create, Feedback.appendTextParagraph, Feedback.appendCodeParagraph]
    simp [_jsToHumanReadable, jsValue_beq_def, JSValue.beq, beqValues, beqPairs]
    exact ⟨rfl, rfl⟩
  refine ⟨rfl, rfl, hres, ?_, rfl⟩
  rw [hres]
  intro hEq
  have h2 : (none : Option Nat) = some 0 :=
    congrArg (fun e => match e with | .ok fb => fb.hintIndex | .error _ => none) hEq
  cases h2

/-- C3 amended: for every non-erroring evaluation result whose first failing
test in scan order is a buggy-output test - equivalently, some task contains
a failing buggy-output test and no earlier-scanned test fails - the reported
feedback is that buggy-output test's feedback, never a correctness or
performance one.  Within each task buggy-output detections outrank
correctness and performance mismatches; across tasks the scan is sequential,
so an earlier task's failure of any kind wins. -/
theorem buggy_outranks_within_first_failing_task (tasks : List TieTask)
    (codeEvalResult : CodeEvalResult) (rawCodeLineIndexes : List (Option Nat))
    (lastSnapshot : Option Snapshot) (timeoutSeconds : Nat) (t : BuggyOutputTest)
    (h : errTruthy codeEvalResult = false)
    (hfirst : specFirstFailing tasks codeEvalResult.buggyOutputTestResults
      codeEvalResult.correctnessTestResults codeEvalResult.performanceTestResults =
      some (.buggy t)) :
    _getFeedbackWithoutReinforcement tasks codeEvalResult rawCodeLineIndexes lastSnapshot
      timeoutSeconds = .ok (_getBuggyOutputTestFeedback t lastSnapshot codeEvalResult) := by
  unfold _getFeedbackWithoutReinforcement
  rw [h]
  simp only [Bool.false_eq_true, if_false]
  rw [scanTasks_eq_spec, hfirst]
  rfl

/-- Witness for the amended C3: a task with both a failing buggy-output test
and a failing correctness test receives the buggy-output feedback. -/
theorem buggy_outranks_within_first_failing_task_witness :
    _getFeedbackWithoutReinforcement
      [⟨[⟨["h"]⟩], [⟨JSValue.num 1, [JSValue.num 1]⟩], [], none⟩]
      { errorString := none, errorInput := JSValue.null, preprocessedCode := "src",
        buggyOutputTestResults := [[true]],
        correctnessTestResults := [[JSValue.num 2]],
        performanceTestResults := [[]] } [] none 3 =
      .ok (_getBuggyOutputTestFeedback ⟨["h"]⟩ none
        { errorString := none, errorInput := JSValue.null, preprocessedCode := "src",
          buggyOutputTestResults := [[true]],
          correctnessTestResults := [[JSValue.num 2]],
          performanceTestResults := [[]] }) :=
  buggy_outranks_within_first_failing_task _ _ [] none 3 ⟨["h"]⟩ rfl rfl
